import Mathlib

/-!
Verification of `scripts/gen-shaping-tests.py` (harfrust shaping-test generator).

The script is embedded shallowly: Python strings become `List Char`, the
filesystem is represented by passing file contents (lists of lines) directly,
and the `subprocess.run` call on the reference `hb-shape` binary is represented
by an oracle `hb : List Str → Option Str` mapping an argument vector to the
captured stdout (`none` models a non-zero exit, which `check=True` turns into
an unhandled exception).  All string operations (`split`, `replace`, `strip`,
`startswith`, `lower`, zero-padded formatting) are defined below with Python's
semantics, restricted to the ASCII data the script manipulates.
-/

set_option maxHeartbeats 1000000
set_option maxRecDepth 100000

namespace GenShaping

/-- Python strings, modelled as lists of characters. -/
abbrev Str := List Char

/-- Embed a Lean string literal as a `Str`. -/
def str (s : String) : Str := s.data

/-- Python `s.startswith(p)`. -/
def startswith (s p : Str) : Bool := List.isPrefixOf p s

/-- Python `s.endswith(p)`. -/
def endswith (s p : Str) : Bool := List.isSuffixOf p s

/-- Python `s.split(sep)` for a one-character separator `c`:
splits at every occurrence, `"".split(c) = [""]`. -/
def splitOnChar (c : Char) : Str → List Str
  | [] => [[]]
  | x :: xs =>
    match splitOnChar c xs with
    | [] => [[]]
    | h :: t => if x = c then [] :: h :: t else (x :: h) :: t

/-- Characters stripped by Python `str.strip()` (ASCII whitespace). -/
def isSpace (c : Char) : Bool :=
  c = ' ' || c = '\t' || c = '\n' || c = '\r' || c = '\x0b' || c = '\x0c'

/-- Left part of Python `str.strip()`. -/
def ltrim (s : Str) : Str := s.dropWhile isSpace

/-- Right part of Python `str.strip()`. -/
def rtrim (s : Str) : Str := (s.reverse.dropWhile isSpace).reverse

/-- Python `s.strip()`. -/
def trim (s : Str) : Str := rtrim (ltrim s)

/-- Worker for `replace`, fuelled so that the recursion is structural
(the fuel starts at the length of the string, which always suffices). -/
def replaceFuel (pat rep : Str) : Nat → Str → Str
  | _, [] => []
  | 0, s => s
  | fuel + 1, c :: cs =>
    if List.isPrefixOf pat (c :: cs) then
      rep ++ replaceFuel pat rep fuel (List.drop pat.length (c :: cs))
    else
      c :: replaceFuel pat rep fuel cs

/-- Python `s.replace(pat, rep)` for a non-empty `pat`: every non-overlapping
occurrence, scanned left to right, is replaced.  (The script never calls
`replace` with an empty pattern; we return `s` unchanged in that case.) -/
def replace (pat rep s : Str) : Str :=
  match pat with
  | [] => s
  | _ :: _ => replaceFuel pat rep s.length s

/-- Python `pat in s` for strings: `pat` occurs as a contiguous substring. -/
def occursIn (pat s : Str) : Bool :=
  List.isPrefixOf pat s ||
    match s with
    | [] => false
    | _ :: t => occursIn pat t

/-- Python `s.lower()` (ASCII). -/
def toLowerStr (s : Str) : Str := s.map Char.toLower

/-- The decimal digit character for `d < 10`. -/
def digitChar (d : Nat) : Char := Char.ofNat (48 + d)

/-- Fuelled decimal printer (most significant digit first). -/
def natDigitsAux : Nat → Nat → Str
  | 0, _ => []
  | fuel + 1, n =>
    if n < 10 then [digitChar n]
    else natDigitsAux fuel (n / 10) ++ [digitChar (n % 10)]

/-- Decimal digits of `n`, as produced by Python `str`/`repr` on an `int ≥ 0`. -/
def natDigits (n : Nat) : Str := natDigitsAux (n + 1) n

/-- Python `f"{n:03d}"` for `n ≥ 0`: the decimal digits, zero-padded on the
left to width 3 (wider numbers are printed in full). -/
def zfill3 (n : Nat) : Str := List.replicate (3 - (natDigits n).length) '0' ++ natDigits n

/-- `os.path.split(p)[1]`: the part after the last `/`. -/
def basename (s : Str) : Str := (splitOnChar '/' s).getLastD []

/-- `pathlib.Path(a).joinpath(b)`, at the precision the script needs:
an absolute second component replaces the first, otherwise the components
are joined with `/`. -/
def joinpath (a b : Str) : Str := if startswith b (str "/") then b else a ++ str "/" ++ b

/-- Adding an element to a Python `set`, modelled as a duplicate-free list. -/
def setAdd (s : List Str) (x : Str) : List Str := if s.contains x then s else s ++ [x]

/-! ## The script's data (lines 12–62) -/

/-- `IGNORE_TESTS` (script lines 12–18): harfbuzz test files that are skipped. -/
def IGNORE_TESTS : List Str :=
  [str "macos.tests", str "coretext.tests", str "directwrite.tests",
   str "uniscribe.tests", str "arabic-fallback-shaping.tests"]

/-- `IGNORE_TEST_CASES` (script lines 21–62): test cases that are skipped. -/
def IGNORE_TEST_CASES : List Str :=
  [str "simple_002", str "collections_001", str "collections_002",
   str "collections_003", str "collections_006", str "macos_002",
   str "macos_122", str "glyph_flags_002", str "colr_011", str "colr_014",
   str "colr_021", str "color_fonts_001", str "color_fonts_002",
   str "color_fonts_003", str "vertical_016"]

/-! ## `update_font_path` (lines 73–79) -/

/-- `update_font_path(tests_name, fontfile)`: non-absolute font references are
rewritten under `tests/fonts/<tests_name>/` after dropping a `../fonts/`
component; absolute references pass through. -/
def update_font_path (tests_name fontfile : Str) : Str :=
  if !(startswith fontfile (str "/")) then
    str "tests/fonts/" ++ tests_name ++ str "/" ++ replace (str "../fonts/") [] fontfile
  else fontfile

/-! ## `convert_unicodes` (lines 82–94) -/

/-- The line-continuation break the script inserts: backslash, newline and
13 spaces (script line 87). -/
def contBreak : Str := str "\\\n             "

/-- One token's escape: strip a leading `U+`, wrap in `\u{...}`
(script lines 89–92). -/
def escTok (u : Str) : Str :=
  str "\\u\x7b" ++ (if startswith u (str "U+") then u.drop 2 else u) ++ str "\x7d"

/-- The body of the `for i, u in enumerate(...)` loop of `convert_unicodes`,
with `i` the running enumeration index (script lines 85–92). -/
def convertLoop : Nat → List Str → Str
  | _, [] => []
  | i, u :: rest =>
    (if 0 < i ∧ i % 10 = 0 then contBreak else []) ++ escTok u ++ convertLoop (i + 1) rest

/-- `convert_unicodes(unicodes)` (script lines 83–94): split on `,`, escape
every token, breaking the generated line every 10 tokens. -/
def convert_unicodes (unicodes : Str) : Str := convertLoop 0 (splitOnChar ',' unicodes)

/-! ## `prune_test_options` (lines 97–106) -/

/-- `prune_test_options(options)` (script lines 97–106): the fixed chain of
substring replacements, then `strip()`. -/
def prune_test_options (options : Str) : Str :=
  trim (replace (str "--not-found-variation-selector-glyph=1000000")
          (str "--not-found-variation-selector-glyph=64000")
       (replace (str "--font-size=1000") []
       (replace (str "--font-funcs=ot") []
       (replace (str " --font-funcs=ot") []
       (replace (str "--font-funcs=ft") []
       (replace (str " --font-funcs=ft") []
       (replace (str "--shaper=ot") [] options)))))))

/-! ## `convert_test_file` (lines 109–207) -/

/-- The failure modes of `convert_test_file`, i.e. the unhandled Python
exceptions it can raise. -/
inductive ConvertError
  /-- `data.split(";")` did not produce exactly four fields (line 115). -/
  | parseError
  /-- `fontfile.split("@")` did not produce exactly two parts (line 119). -/
  | unpackError
  /-- `subprocess.run(..., check=True)` failed (line 161). -/
  | subprocessError
deriving DecidableEq

/-- What one `convert_test_file` call produces: the returned string, the
subprocess invocations it performed, and the basenames it added to `fonts`. -/
structure ConvertResult where
  output : Str
  invocations : List (List Str)
  fontsAdded : List Str
deriving DecidableEq

instance {ε α : Type} [DecidableEq ε] [DecidableEq α] : DecidableEq (Except ε α) := fun x y =>
  match x, y with
  | .error a, .error b =>
    if h : a = b then .isTrue (by rw [h]) else
      .isFalse (by intro hc; injection hc; exact h (by assumption))
  | .error _, .ok _ => .isFalse (by intro hc; injection hc)
  | .ok _, .error _ => .isFalse (by intro hc; injection hc)
  | .ok a, .ok b =>
    if h : a = b then .isTrue (by rw [h]) else
      .isFalse (by intro hc; injection hc; exact h (by assumption))

/-- Script lines 117–119: if the font field contains `@`, the two-way
unpacking `fontfile, _ = fontfile.split("@")` keeps the part before the hash
and raises if the split does not have exactly two parts. -/
def stripHash (f : Str) : Except ConvertError Str :=
  if f.contains '@' then
    match splitOnChar '@' f with
    | [a, _] => .ok a
    | _ => .error .unpackError
  else .ok f

/-- Script line 122: unescape `\ ` to a literal space in the font field. -/
def fontfileClean (ff : Str) : Str := replace (str "\\ ") (str " ") ff

/-- Script line 123: the font path the generated test will use. -/
def fontfileRs (tests_name ff : Str) (custom : Bool) : Str :=
  if custom then fontfileClean ff else update_font_path tests_name (fontfileClean ff)

/-- Script lines 127–128: the generated case identifier. -/
def testName (file_name : Str) (idx : Nat) : Str :=
  toLowerStr (replace (str "-") (str "_") (replace (str ".tests") [] file_name)
    ++ str "_" ++ zfill3 idx)

/-- Script lines 145–154: the absolute font path handed to `hb-shape`. -/
def absFontPath (root_dir tests_name fontfile_rs fontfile : Str) (custom : Bool) : Str :=
  if custom then joinpath root_dir fontfile_rs
  else joinpath (joinpath (joinpath (joinpath root_dir (str "test/shape/data"))
    tests_name) (str "tests")) fontfile

/-- Script lines 138–157: the argument vector of the `hb-shape` invocation. -/
def hbArgs (hb_shape_exe options abs_font_path unicodes : Str) : List Str :=
  (hb_shape_exe :: (if options.length ≠ 0 then splitOnChar ' ' options else []))
    ++ [abs_font_path, str "--unicodes=" ++ unicodes]

/-- The full `hb-shape` argument vector for one record, assembled from the
already hash-stripped font field `ff` and the raw option/unicode fields. -/
def recordArgs (hb_shape_exe root_dir tests_name ff options unicodes : Str)
    (custom : Bool) : List Str :=
  hbArgs hb_shape_exe (prune_test_options options)
    (absFontPath root_dir tests_name (fontfileRs tests_name ff custom)
      (fontfileClean ff) custom) unicodes

/-- Script lines 159–167: when the expected field is *not* the wildcard `*`,
run `hb-shape` and keep its stdout, stripped of surrounding whitespace and of
the first and last remaining character (the `[...]` brackets); a wildcard
expected field runs nothing.  Returns the resulting expected value together
with the list of invocations performed. -/
def runExpected (hb : List Str → Option Str) (args : List Str) (glyphs_expected : Str) :
    Except ConvertError (Str × List (List Str)) :=
  if glyphs_expected = str "*" then .ok (glyphs_expected, [])
  else
    match hb args with
    | none => .error .subprocessError
    | some out => .ok (((trim out).drop 1).dropLast, [args])

/-- Script lines 169–171: the option string embedded in the generated test:
quotes escaped, ` --single-par` dropped. -/
def optionsRs (options : Str) : Str :=
  replace (str " --single-par") [] (replace (str "\"") (str "\\\"") options)

/-- Script lines 173–174: basenames added to the `fonts` set. -/
def fontsAddedOf (tests_name ff : Str) (custom : Bool) : List Str :=
  if startswith (fontfileClean ff) (str "/") then []
  else [basename (fontfileRs tests_name ff custom)]

/-- Script lines 177–187: the generated test without an assertion
(wildcard expected value). -/
def plainTest (test_name fontfile_rs unicodes_rs options_rs : Str) : Str :=
  str "#[test]\nfn " ++ test_name ++ str "() \x7b\n    shape(\n        \"" ++
  fontfile_rs ++ str "\",\n        \"" ++ unicodes_rs ++ str "\",\n        \"" ++
  options_rs ++ str "\",\n    );\n\x7d\n\n"

/-- Script lines 189–202: the generated test asserting equality against the
expected value. -/
def assertTest (test_name fontfile_rs unicodes_rs options_rs glyphs_expected : Str) : Str :=
  str "#[test]\nfn " ++ test_name ++ str "() \x7b\n    assert_eq!(\n        shape(\n            \"" ++
  fontfile_rs ++ str "\",\n            \"" ++ unicodes_rs ++ str "\",\n            \"" ++
  options_rs ++ str "\",\n        ),\n        \"" ++ glyphs_expected ++
  str "\"\n    );\n\x7d\n\n"

/-- Script lines 204–205: per-case macOS guard. -/
def macosGuard : Str := str "#[cfg(target_os = \"macos\")]\n"

/-- Script lines 176–207: assemble the emitted block for one record. -/
def emitTest (file_name test_name fontfile_rs unicodes_rs options_rs glyphs_expected : Str) : Str :=
  let body :=
    if glyphs_expected = str "*" then plainTest test_name fontfile_rs unicodes_rs options_rs
    else assertTest test_name fontfile_rs unicodes_rs options_rs glyphs_expected
  if file_name = str "macos.tests" then macosGuard ++ body else body

/-- `convert_test_file` (script lines 109–207).  `hb` is the subprocess
oracle; the returned structure carries the string the Python function returns
together with the side effects it performed. -/
def convert_test_file (hb : List Str → Option Str)
    (root_dir hb_shape_exe tests_name file_name : Str) (idx : Nat)
    (data : Str) (custom : Bool) : Except ConvertError ConvertResult :=
  if startswith data (str "@") then .ok ⟨[], [], []⟩   -- line 112: directive
  else
    match splitOnChar ';' data with
    | [fontfile0, options0, unicodes, glyphs_expected0] =>
      (stripHash fontfile0).bind fun ff =>
        if IGNORE_TEST_CASES.contains (testName file_name idx) then .ok ⟨[], [], []⟩
        else
          (runExpected hb
              (recordArgs hb_shape_exe root_dir tests_name ff options0 unicodes custom)
              glyphs_expected0).bind fun res =>
            .ok ⟨emitTest file_name (testName file_name idx)
                   (fontfileRs tests_name ff custom) (convert_unicodes unicodes)
                   (optionsRs (prune_test_options options0)) res.1,
                 res.2, fontsAddedOf tests_name ff custom⟩
    | _ => .error .parseError

/-! ## `read_test_cases` (lines 211–220) and the pipeline (lines 224–260) -/

/-- The loop of `read_test_cases`: skip comments and empty lines, enumerate
the rest starting at `idx`. -/
def read_test_cases_aux : Nat → List Str → List (Nat × Str)
  | _, [] => []
  | idx, t :: rest =>
    if startswith t (str "#") || t.isEmpty then read_test_cases_aux idx rest
    else (idx, t) :: read_test_cases_aux (idx + 1) rest

/-- `read_test_cases(path)` (script lines 211–220), with the file's content
given as its list of lines. -/
def read_test_cases (lines : List Str) : List (Nat × Str) := read_test_cases_aux 0 lines

/-- A line kept by `read_test_cases`: not a comment, not empty. -/
def keepLine (t : Str) : Bool := !(startswith t (str "#") || t.isEmpty)

/-- The accumulated state of `convert_test_files`: the generated Rust code,
the `fonts` set, and the subprocess invocations performed so far. -/
structure GenState where
  output : Str
  fonts : List Str
  invocations : List (List Str)
deriving DecidableEq

/-- One iteration of the inner loop of `convert_test_files`
(script lines 249–252): convert a record with its 1-based index and append. -/
def recordStep (hb : List Str → Option Str)
    (root_dir hb_shape_exe tests_name file_name : Str) (custom : Bool)
    (st : GenState) (it : Nat × Str) : Except ConvertError GenState :=
  (convert_test_file hb root_dir hb_shape_exe tests_name file_name (it.1 + 1)
      it.2 custom).map fun r =>
    ⟨st.output ++ r.output, r.fontsAdded.foldl setAdd st.fonts,
     st.invocations ++ r.invocations⟩

/-- The outer loop body of `convert_test_files` (script lines 246–251):
process every record of one file, whose content is given as its lines. -/
def fileStep (hb : List Str → Option Str)
    (root_dir hb_shape_exe tests_name : Str) (custom : Bool)
    (st : GenState) (file : Str × List Str) : Except ConvertError GenState :=
  (read_test_cases file.2).foldlM
    (recordStep hb root_dir hb_shape_exe tests_name file.1 custom) st

/-- The fixed module header (script lines 236–244). -/
def moduleHeader (tests_name : Str) : Str :=
  str "// WARNING: this file was generated by ../scripts/gen-shaping-tests.py\n\n" ++
  (if tests_name = str "macos" then macosGuard else []) ++
  str "use crate::shape;\n\n"

/-- `convert_test_files` (script lines 233–260): files are given as
`(name, lines)` pairs; the final `rust_code[:-1]` drops the last character.
The file write (line 257) is modelled by returning the written text. -/
def convert_test_files (hb : List Str → Option Str)
    (root_dir hb_shape_exe tests_name : Str) (files : List (Str × List Str))
    (custom : Bool) : Except ConvertError GenState :=
  (files.foldlM (fileStep hb root_dir hb_shape_exe tests_name custom)
      ⟨moduleHeader tests_name, [], []⟩).map fun st =>
    ⟨st.output.dropLast, st.fonts, st.invocations⟩

/-- `convert_test_folder` (script lines 224–230): keep only `.tests` files not
in `IGNORE_TESTS` (the directory listing is given already sorted). -/
def convert_test_folder (hb : List Str → Option Str)
    (root_dir hb_shape_exe tests_name : Str) (dirFiles : List (Str × List Str))
    (custom : Bool) : Except ConvertError GenState :=
  convert_test_files hb root_dir hb_shape_exe tests_name
    (dirFiles.filter fun f => endswith f.1 (str ".tests") && !(IGNORE_TESTS.contains f.1))
    custom

/-! ## Specification-side definitions

These restate properties in the words of the specification, to be compared
with the definitions translated from the script. -/

/-- The spec's description of the continuation break rule: a break appears
exactly before every token whose 0-based position is a positive multiple
of 10. -/
def brkIf (i : Nat) : Str := if 0 < i ∧ i % 10 = 0 then contBreak else []

/-- The spec's description of `convert_unicodes` on the token list: one escape
per token, in input order, with `brkIf` inserted by position. -/
def specUnicodeText (ts : List Str) : Str :=
  (ts.enum.map fun p => brkIf p.1 ++ escTok p.2).flatten

/-- The spec's case-identifier formula:
`lower(replace(filename, ".tests"->"", "-"->"_")) + "_" + zero_pad(index, 3)`
(lower-casing applied to the file-name part only). -/
def specCaseId (file_name : Str) (idx : Nat) : Str :=
  toLowerStr (replace (str "-") (str "_") (replace (str ".tests") [] file_name))
    ++ str "_" ++ zfill3 idx

end GenShaping

namespace GenShaping

/-! ## Lemmas about the string primitives -/

theorem dropWhile_dropWhile (p : Char → Bool) (l : Str) :
    (l.dropWhile p).dropWhile p = l.dropWhile p := by
  induction l with
  | nil => rfl
  | cons a l ih =>
    by_cases h : p a
    · simp [List.dropWhile_cons, h, ih]
    · simp [List.dropWhile_cons, h]

theorem rtrim_eq_append (s : Str) : ∃ t, s = rtrim s ++ t := by
  refine ⟨(s.reverse.takeWhile isSpace).reverse, ?_⟩
  unfold rtrim
  conv_lhs => rw [← List.reverse_reverse s,
    ← List.takeWhile_append_dropWhile (p := isSpace) (l := s.reverse)]
  rw [List.reverse_append]

theorem ltrim_of_append (l t : Str) (h : ltrim (l ++ t) = l ++ t) : ltrim l = l := by
  cases l with
  | nil => rfl
  | cons a l' =>
    unfold ltrim at h ⊢
    by_cases ha : isSpace a
    · exfalso
      rw [List.cons_append, List.dropWhile_cons, if_pos ha] at h
      have hle := (List.dropWhile_sublist (l := l' ++ t) isSpace).length_le
      rw [h] at hle
      simp at hle
    · rw [List.dropWhile_cons, if_neg ha]

theorem rtrim_rtrim (s : Str) : rtrim (rtrim s) = rtrim s := by
  unfold rtrim
  rw [List.reverse_reverse, dropWhile_dropWhile]

theorem trim_trim (s : Str) : trim (trim s) = trim s := by
  unfold trim
  obtain ⟨t, ht⟩ := rtrim_eq_append (ltrim s)
  have h1 : ltrim (ltrim s) = ltrim s := dropWhile_dropWhile isSpace s
  have h2 : ltrim (rtrim (ltrim s)) = rtrim (ltrim s) := by
    apply ltrim_of_append _ t
    rw [← ht]
    exact h1
  rw [h2, rtrim_rtrim]

theorem occursIn_false_head (pat : Str) (s : Str) (h : occursIn pat s = false) :
    List.isPrefixOf pat s = false := by
  cases s <;> simp [occursIn, Bool.or_eq_false_iff] at h <;> tauto

theorem occursIn_false_tail (pat : Str) (c : Char) (cs : Str)
    (h : occursIn pat (c :: cs) = false) : occursIn pat cs = false := by
  simp [occursIn, Bool.or_eq_false_iff] at h
  exact h.2

theorem occursIn_cons_pat (a : Char) (pat s : Str) (h : occursIn pat s = false) :
    occursIn (a :: pat) s = false := by
  induction s with
  | nil => rfl
  | cons b t ih =>
    have h1 : List.isPrefixOf pat t = false :=
      occursIn_false_head pat t (occursIn_false_tail pat b t h)
    have h2 : occursIn (a :: pat) t = false := ih (occursIn_false_tail pat b t h)
    simp [occursIn, List.isPrefixOf, h1, h2]

theorem replaceFuel_no_occ (pat rep : Str) :
    ∀ (fuel : Nat) (s : Str), occursIn pat s = false → replaceFuel pat rep fuel s = s := by
  intro fuel
  induction fuel with
  | zero => intro s _; cases s <;> rfl
  | succ fuel ih =>
    intro s h
    cases s with
    | nil => rfl
    | cons c cs =>
      have h1 : List.isPrefixOf pat (c :: cs) = false := occursIn_false_head pat _ h
      have h2 : occursIn pat cs = false := occursIn_false_tail pat c cs h
      simp [replaceFuel, h1, ih cs h2]

theorem replace_no_occ (pat rep s : Str) (h : occursIn pat s = false) :
    replace pat rep s = s := by
  cases pat with
  | nil => rfl
  | cons a p => exact replaceFuel_no_occ (a :: p) rep s.length s h

end GenShaping

namespace GenShaping

/-! ## Claim C4 -/

/-- C4, counterexample: the unicode literal converter applied to the empty
string does **not** yield the empty string (the empty input still contributes
one token, the empty token). -/
theorem c4_empty_input_claim_false : convert_unicodes (str "") ≠ str "" := by decide

/-- C4 (amended): the unicode literal converter applied to the empty string
does not raise, and yields the single escape sequence with empty hex digits. -/
theorem c4_empty_input_amended : convert_unicodes (str "") = str "\\u\x7b\x7d" := by decide

/-! ## Claim C6 -/

theorem convertLoop_eq_enumFrom (ts : List Str) :
    ∀ i : Nat, convertLoop i ts = ((ts.enumFrom i).map fun p => brkIf p.1 ++ escTok p.2).flatten := by
  induction ts with
  | nil => intro i; rfl
  | cons u rest ih =>
    intro i
    simp [convertLoop, List.enumFrom, brkIf, ih (i + 1)]

/-- C6: for every comma-separated unicode list, the converter emits one
`\u{...}` escape per token in input order (stripping a leading `U+`), with a
continuation break exactly before every token whose 0-based position is a
positive multiple of 10; concretely, an 11-token list contains exactly one
break (one generated newline), placed after the 10th token. -/
theorem c6_unicode_conversion :
    (∀ s : Str, convert_unicodes s = specUnicodeText (splitOnChar ',' s)) ∧
    convert_unicodes (str "U+0041,0078") = str "\\u\x7b0041\x7d\\u\x7b0078\x7d" ∧
    convert_unicodes (str "0,1,2,3,4,5,6,7,8,9,a") =
      str "\\u\x7b0\x7d\\u\x7b1\x7d\\u\x7b2\x7d\\u\x7b3\x7d\\u\x7b4\x7d\\u\x7b5\x7d\\u\x7b6\x7d\\u\x7b7\x7d\\u\x7b8\x7d\\u\x7b9\x7d\\\n             \\u\x7ba\x7d" ∧
    (convert_unicodes (str "0,1,2,3,4,5,6,7,8,9,a")).count '\n' = 1 := by
  refine ⟨fun s => ?_, by decide, by decide, by decide⟩
  unfold convert_unicodes specUnicodeText
  rw [convertLoop_eq_enumFrom]
  rfl

/-! ## Claim C7 -/

/-- C7, counterexample: option normalization is not idempotent.  On
`--shaper=o--shaper=ott`, removing the inner `--shaper=ot` splices the
surrounding text into a new `--shaper=ot`, which only a second application
removes. -/
theorem c7_idempotence_claim_false :
    prune_test_options (prune_test_options (str "--shaper=o--shaper=ott")) ≠
      prune_test_options (str "--shaper=o--shaper=ott") := by decide

/-- C7 (amended): option normalization is idempotent on every option string
whose once-normalized form contains none of the five replaced markers — in
particular on every realistic option string; it is not idempotent in general,
because removing one marker occurrence can splice the surrounding text into a
new occurrence. -/
theorem c7_prune_idempotent_when_clean (s : Str)
    (h1 : occursIn (str "--shaper=ot") (prune_test_options s) = false)
    (h2 : occursIn (str "--font-funcs=ft") (prune_test_options s) = false)
    (h3 : occursIn (str "--font-funcs=ot") (prune_test_options s) = false)
    (h4 : occursIn (str "--font-size=1000") (prune_test_options s) = false)
    (h5 : occursIn (str "--not-found-variation-selector-glyph=1000000")
            (prune_test_options s) = false) :
    prune_test_options (prune_test_options s) = prune_test_options s := by
  have e2 : str " --font-funcs=ft" = ' ' :: str "--font-funcs=ft" := by decide
  have e3 : str " --font-funcs=ot" = ' ' :: str "--font-funcs=ot" := by decide
  have h2' : occursIn (str " --font-funcs=ft") (prune_test_options s) = false := by
    rw [e2]; exact occursIn_cons_pat _ _ _ h2
  have h3' : occursIn (str " --font-funcs=ot") (prune_test_options s) = false := by
    rw [e3]; exact occursIn_cons_pat _ _ _ h3
  have expand : prune_test_options (prune_test_options s) =
      trim (replace (str "--not-found-variation-selector-glyph=1000000")
              (str "--not-found-variation-selector-glyph=64000")
           (replace (str "--font-size=1000") []
           (replace (str "--font-funcs=ot") []
           (replace (str " --font-funcs=ot") []
           (replace (str "--font-funcs=ft") []
           (replace (str " --font-funcs=ft") []
           (replace (str "--shaper=ot") [] (prune_test_options s)))))))) := rfl
  rw [expand, replace_no_occ _ _ _ h1, replace_no_occ _ _ _ h2',
    replace_no_occ _ _ _ h2, replace_no_occ _ _ _ h3', replace_no_occ _ _ _ h3,
    replace_no_occ _ _ _ h4, replace_no_occ _ _ _ h5]
  exact trim_trim _

/-- C7 witness: a concrete option string satisfying the hypotheses. -/
theorem c7_prune_idempotent_when_clean_witness :
    prune_test_options (prune_test_options (str "--no-glyph-names --shaper=ot")) =
      prune_test_options (str "--no-glyph-names --shaper=ot") :=
  c7_prune_idempotent_when_clean (str "--no-glyph-names --shaper=ot")
    (by decide) (by decide) (by decide) (by decide) (by decide)

/-! ## Claim C8 -/

theorem toLower_digitChar (d : Nat) (h : d < 10) :
    Char.toLower (digitChar d) = digitChar d := by
  interval_cases d <;> decide

theorem natDigitsAux_lower :
    ∀ (fuel n : Nat), ∀ c ∈ natDigitsAux fuel n, Char.toLower c = c := by
  intro fuel
  induction fuel with
  | zero => intro n c hc; simp [natDigitsAux] at hc
  | succ fuel ih =>
    intro n c hc
    by_cases h : n < 10
    · simp [natDigitsAux, h] at hc
      subst hc
      exact toLower_digitChar n h
    · simp [natDigitsAux, h] at hc
      rcases hc with hc | hc
      · exact ih _ _ hc
      · subst hc
        exact toLower_digitChar _ (Nat.mod_lt _ (by norm_num))

theorem toLowerStr_self (l : Str) (h : ∀ c ∈ l, Char.toLower c = c) :
    toLowerStr l = l := by
  unfold toLowerStr
  induction l with
  | nil => rfl
  | cons a t ih =>
    simp only [List.map_cons]
    rw [h a (by simp), ih fun c hc => h c (List.mem_cons_of_mem a hc)]

theorem zfill3_lower (n : Nat) : toLowerStr (zfill3 n) = zfill3 n := by
  apply toLowerStr_self
  intro c hc
  unfold zfill3 at hc
  rcases List.mem_append.mp hc with hc | hc
  · rw [List.eq_of_mem_replicate hc]; decide
  · exact natDigitsAux_lower _ _ c hc

theorem toLowerStr_append (a b : Str) :
    toLowerStr (a ++ b) = toLowerStr a ++ toLowerStr b := List.map_append _ _ _

theorem read_aux_eq_enumFrom :
    ∀ (lines : List Str) (i : Nat),
      read_test_cases_aux i lines = (lines.filter keepLine).enumFrom i := by
  intro lines
  induction lines with
  | nil => intro i; rfl
  | cons t rest ih =>
    intro i
    by_cases h : (startswith t (str "#") || t.isEmpty) = true
    · simp [read_test_cases_aux, h, keepLine, List.filter_cons, ih]
    · rw [Bool.not_eq_true] at h
      simp [read_test_cases_aux, h, keepLine, List.filter_cons, List.enumFrom, ih]

/-- C8 (confirmed): the generated case identifier is exactly the spec's
deterministic formula
`lower(replace(filename, ".tests"->"", "-"->"_")) + "_" + zero_pad(index, 3)`,
and the records of a file are enumerated in order — `read_test_cases` pairs
the non-comment, non-empty lines with consecutive 0-based indices (the
pipeline then passes `idx + 1`, the 1-based index within the file, to
`convert_test_file`, see `recordStep`). -/
theorem c8_case_identifier_formula :
    (∀ (file_name : Str) (idx : Nat), testName file_name idx = specCaseId file_name idx) ∧
    (∀ lines : List Str, read_test_cases lines = (lines.filter keepLine).enum) := by
  constructor
  · intro fn idx
    unfold testName specCaseId
    rw [toLowerStr_append, toLowerStr_append, zfill3_lower]
    have h : toLowerStr (str "_") = str "_" := by decide
    rw [h]
  · intro lines
    unfold read_test_cases
    rw [read_aux_eq_enumFrom]
    rfl

/-! ## Claim C10 -/

theorem splitOnChar_ne_nil (c : Char) : ∀ s : Str, splitOnChar c s ≠ [] := by
  intro s
  induction s with
  | nil => simp [splitOnChar]
  | cons x xs ih =>
    cases hsp : splitOnChar c xs with
    | nil => exact absurd hsp ih
    | cons h t =>
      simp only [splitOnChar, hsp]
      split <;> simp

theorem splitOnChar_length (c : Char) :
    ∀ s : Str, (splitOnChar c s).length = s.count c + 1 := by
  intro s
  induction s with
  | nil => rfl
  | cons x xs ih =>
    cases hsp : splitOnChar c xs with
    | nil => exact absurd hsp (splitOnChar_ne_nil c xs)
    | cons h t =>
      rw [hsp] at ih
      simp only [List.length_cons] at ih
      by_cases hx : x = c
      · simp [splitOnChar, hsp, hx, List.count_cons]
        omega
      · simp [splitOnChar, hsp, hx, List.count_cons]
        omega

theorem contains_of_two (f : Str) (h : 2 ≤ f.count '@') : f.contains '@' = true := by
  have hm : '@' ∈ f := by
    by_contra hn
    rw [List.count_eq_zero.mpr hn] at h
    omega
  exact List.elem_iff.mpr hm

/-- C10 (confirmed): on a non-directive four-field record whose font field
contains two or more `@` characters, the two-way unpacking of
`fontfile.split("@")` fails, and `convert_test_file` raises instead of
stripping the suffix. -/
theorem c10_double_hash_fatal (hb : List Str → Option Str)
    (root exe tn fn : Str) (idx : Nat) (data f o u g : Str) (custom : Bool)
    (h1 : startswith data (str "@") = false)
    (h2 : splitOnChar ';' data = [f, o, u, g])
    (h3 : 2 ≤ f.count '@') :
    convert_test_file hb root exe tn fn idx data custom = .error .unpackError := by
  have hc : f.contains '@' = true := contains_of_two f h3
  have hlen : 3 ≤ (splitOnChar '@' f).length := by
    rw [splitOnChar_length]
    omega
  have hsh : stripHash f = .error .unpackError := by
    rcases hsp : splitOnChar '@' f with _ | ⟨a, _ | ⟨b, _ | ⟨c3, r⟩⟩⟩
    · rw [hsp] at hlen; simp at hlen
    · rw [hsp] at hlen; simp at hlen
    · rw [hsp] at hlen; simp at hlen
    · simp [stripHash, hc, hsp]
      exact List.elem_iff.mp hc
  simp [convert_test_file, h1, h2, hsh, Except.bind]

/-- C10 witness: a concrete record with two `@` in the font field aborts. -/
theorem c10_double_hash_fatal_witness :
    convert_test_file (fun _ => none) (str "R") (str "E") (str "g") (str "g.tests") 1
        (str "a@b@c.ttf;;0041;*") false = .error .unpackError :=
  c10_double_hash_fatal (fun _ => none) (str "R") (str "E") (str "g") (str "g.tests") 1
    (str "a@b@c.ttf;;0041;*") (str "a@b@c.ttf") (str "") (str "0041") (str "*") false
    (by decide) (by decide) (by decide)

/-! ## Claim C9 -/

theorem convert_parse_fatal (hb : List Str → Option Str)
    (root exe tn fn : Str) (idx : Nat) (data : Str) (custom : Bool)
    (h1 : startswith data (str "@") = false)
    (h2 : (splitOnChar ';' data).length ≠ 4) :
    convert_test_file hb root exe tn fn idx data custom = .error .parseError := by
  rcases hs : splitOnChar ';' data with _ | ⟨f1, _ | ⟨f2, _ | ⟨f3, _ | ⟨f4, _ | ⟨f5, r⟩⟩⟩⟩⟩
  · simp [convert_test_file, h1, hs]
  · simp [convert_test_file, h1, hs]
  · simp [convert_test_file, h1, hs]
  · simp [convert_test_file, h1, hs]
  · exact absurd (by rw [hs]; rfl) h2
  · simp [convert_test_file, h1, hs]

theorem records_foldlM_error (hb : List Str → Option Str)
    (root exe tn fn : Str) (custom : Bool) :
    ∀ (l : List (Nat × Str)) (st : GenState),
      (∃ it ∈ l, ∃ e, convert_test_file hb root exe tn fn (it.1 + 1) it.2 custom = .error e) →
      ∃ e, List.foldlM (recordStep hb root exe tn fn custom) st l = .error e := by
  intro l
  induction l with
  | nil =>
    intro st h
    obtain ⟨it, hm, _⟩ := h
    exact absurd hm (List.not_mem_nil it)
  | cons a l ih =>
    intro st h
    obtain ⟨it, hm, e, he⟩ := h
    rw [List.foldlM_cons]
    rcases List.mem_cons.mp hm with heq | hm'
    · subst heq
      have hst : recordStep hb root exe tn fn custom st it = .error e := by
        simp [recordStep, he, Except.map]
      rw [hst]
      exact ⟨e, rfl⟩
    · cases hstep : recordStep hb root exe tn fn custom st a with
      | error e2 => exact ⟨e2, rfl⟩
      | ok st2 => exact ih st2 ⟨it, hm', e, he⟩

theorem files_foldlM_error (hb : List Str → Option Str)
    (root exe tn : Str) (custom : Bool) :
    ∀ (files : List (Str × List Str)) (st : GenState),
      (∃ file ∈ files, ∃ it ∈ read_test_cases file.2, ∃ e,
        convert_test_file hb root exe tn file.1 (it.1 + 1) it.2 custom = .error e) →
      ∃ e, List.foldlM (fileStep hb root exe tn custom) st files = .error e := by
  intro files
  induction files with
  | nil =>
    intro st h
    obtain ⟨file, hm, _⟩ := h
    exact absurd hm (List.not_mem_nil file)
  | cons a fs ih =>
    intro st h
    obtain ⟨file, hm, hrest⟩ := h
    rw [List.foldlM_cons]
    rcases List.mem_cons.mp hm with heq | hm'
    · subst heq
      obtain ⟨e2, he2⟩ :=
        records_foldlM_error hb root exe tn file.1 custom (read_test_cases file.2) st hrest
      have hfs : fileStep hb root exe tn custom st file = .error e2 := he2
      rw [hfs]
      exact ⟨e2, rfl⟩
    · cases hstep : fileStep hb root exe tn custom st a with
      | error e2 => exact ⟨e2, rfl⟩
      | ok st2 => exact ih st2 ⟨file, hm', hrest⟩

/-- C9 (confirmed): a non-comment, non-empty, non-directive line without
exactly four `;`-separated fields makes `convert_test_file` raise a parse
failure, and the failure propagates through `convert_test_files`: the whole
run aborts instead of skipping the record. -/
theorem c9_malformed_record_fatal :
    (∀ (hb : List Str → Option Str) (root exe tn fn : Str) (idx : Nat)
        (data : Str) (custom : Bool),
      startswith data (str "@") = false →
      (splitOnChar ';' data).length ≠ 4 →
      convert_test_file hb root exe tn fn idx data custom = .error .parseError) ∧
    (∀ (hb : List Str → Option Str) (root exe tn : Str)
        (files : List (Str × List Str)) (custom : Bool),
      (∃ file ∈ files, ∃ it ∈ read_test_cases file.2,
        startswith it.2 (str "@") = false ∧ (splitOnChar ';' it.2).length ≠ 4) →
      ∃ e, convert_test_files hb root exe tn files custom = .error e) := by
  constructor
  · exact fun hb root exe tn fn idx data custom h1 h2 =>
      convert_parse_fatal hb root exe tn fn idx data custom h1 h2
  · intro hb root exe tn files custom h
    obtain ⟨file, hmf, it, hmi, h1, h2⟩ := h
    obtain ⟨e, hfold⟩ := files_foldlM_error hb root exe tn custom files
      ⟨moduleHeader tn, [], []⟩
      ⟨file, hmf, it, hmi, .parseError,
        convert_parse_fatal hb root exe tn file.1 (it.1 + 1) it.2 custom h1 h2⟩
    exact ⟨e, by simp [convert_test_files, hfold, Except.map]⟩

/-- C9 witness: a three-field record aborts both the single conversion and
the whole pipeline. -/
theorem c9_malformed_record_fatal_witness :
    convert_test_file (fun _ => none) (str "R") (str "E") (str "g") (str "t.tests") 1
        (str "a;b;c") false = .error .parseError ∧
    ∃ e, convert_test_files (fun _ => none) (str "R") (str "E") (str "g")
        [(str "t.tests", [str "a;b;c"])] false = .error e :=
  ⟨c9_malformed_record_fatal.1 (fun _ => none) (str "R") (str "E") (str "g")
      (str "t.tests") 1 (str "a;b;c") false (by decide) (by decide),
   c9_malformed_record_fatal.2 (fun _ => none) (str "R") (str "E") (str "g")
      [(str "t.tests", [str "a;b;c"])] false
      ⟨(str "t.tests", [str "a;b;c"]), by decide, (0, str "a;b;c"), by decide,
        by decide, by decide⟩⟩

/-! ## Claim C3 -/

/-- C3, counterexample: a four-field line whose *second* field starts with
`@` (`a.ttf;@x;0041;*`) is **not** treated as a directive: conversion
produces a non-empty generated test instead of returning the empty string. -/
theorem c3_any_field_directive_claim_false :
    (convert_test_file (fun _ => none) (str "R") (str "E") (str "g") (str "g.tests") 1
        (str "a.ttf;@x;0041;*") false).map (fun r => r.output.isEmpty) = .ok false := by
  decide

/-- C3 (amended): only a line whose first character — equivalently, whose
*first* field — begins with `@` is a directive; such a line is ignored
entirely: conversion returns the empty string with no subprocess invocation
and no font-asset addition.  An `@` at the start of any later field does not
make the line a directive. -/
theorem c3_line_start_directive (hb : List Str → Option Str)
    (root exe tn fn : Str) (idx : Nat) (data : Str) (custom : Bool)
    (h : startswith data (str "@") = true) :
    convert_test_file hb root exe tn fn idx data custom = .ok ⟨[], [], []⟩ := by
  simp [convert_test_file, h]

/-- C3 witness: a line starting with `@` is ignored. -/
theorem c3_line_start_directive_witness :
    convert_test_file (fun _ => none) (str "R") (str "E") (str "g") (str "g.tests") 1
        (str "@arabic-files;;;") false = .ok ⟨[], [], []⟩ :=
  c3_line_start_directive (fun _ => none) (str "R") (str "E") (str "g") (str "g.tests") 1
    (str "@arabic-files;;;") false (by decide)

/-! ## Claim C5 -/

/-- C5 (confirmed): exclusion is applied before any side effect.  A
well-formed record whose derived case name is in `IGNORE_TEST_CASES` makes
`convert_test_file` return the empty string with no subprocess invocation and
no font-asset addition; and a file whose name is in `IGNORE_TESTS` is dropped
by `convert_test_folder` before its content is even looked at, so it
contributes zero generated cases regardless of that content. -/
theorem c5_exclusion_before_side_effects :
    (∀ (hb : List Str → Option Str) (root exe tn fn : Str) (idx : Nat)
        (data f o u g ff : Str) (custom : Bool),
      splitOnChar ';' data = [f, o, u, g] →
      stripHash f = .ok ff →
      IGNORE_TEST_CASES.contains (testName fn idx) = true →
      convert_test_file hb root exe tn fn idx data custom = .ok ⟨[], [], []⟩) ∧
    (∀ (hb : List Str → Option Str) (root exe tn name : Str)
        (pre post : List (Str × List Str)) (lines : List Str) (custom : Bool),
      IGNORE_TESTS.contains name = true →
      convert_test_folder hb root exe tn (pre ++ (name, lines) :: post) custom =
        convert_test_folder hb root exe tn (pre ++ post) custom) := by
  constructor
  · intro hb root exe tn fn idx data f o u g ff custom h2 h3 h4
    have h4m : testName fn idx ∈ IGNORE_TEST_CASES := by simpa using h4
    by_cases h1 : startswith data (str "@") = true
    · simp [convert_test_file, h1]
    · rw [Bool.not_eq_true] at h1
      simp [convert_test_file, h1, h2, h3, h4m, Except.bind]
  · intro hb root exe tn name pre post lines custom h
    have hm : name ∈ IGNORE_TESTS := by simpa using h
    unfold convert_test_folder
    congr 1
    rw [List.filter_append, List.filter_append, List.filter_cons]
    simp [hm]

/-- C5 witness: the second record of `simple.tests` derives the excluded name
`simple_002` and is dropped with no side effects; a file named `macos.tests`
contributes nothing. -/
theorem c5_exclusion_before_side_effects_witness :
    convert_test_file (fun _ => none) (str "R") (str "E") (str "g")
        (str "simple.tests") 2 (str "a.ttf;;0041;[A=0+500]") false = .ok ⟨[], [], []⟩ ∧
    convert_test_folder (fun _ => none) (str "R") (str "E") (str "g")
        [(str "macos.tests", [str "a.ttf;;0041;*"])] false =
      convert_test_folder (fun _ => none) (str "R") (str "E") (str "g") [] false :=
  ⟨c5_exclusion_before_side_effects.1 (fun _ => none) (str "R") (str "E") (str "g")
      (str "simple.tests") 2 (str "a.ttf;;0041;[A=0+500]") (str "a.ttf") (str "")
      (str "0041") (str "[A=0+500]") (str "a.ttf") false (by decide) (by decide) (by decide),
   c5_exclusion_before_side_effects.2 (fun _ => none) (str "R") (str "E") (str "g")
      (str "macos.tests") [] [] [str "a.ttf;;0041;*"] false (by decide)⟩

/-! ## Claim C1 -/

/-- C1, counterexample: a parsed, non-excluded record whose fourth field is
the *literal* `[A=0+500]` (not the wildcard `*`) triggers exactly one
reference-binary invocation — the opposite of the claim, which says literal
records never trigger an invocation. -/
theorem c1_invocation_on_wildcard_claim_false :
    (convert_test_file (fun _ => some (str "[A=0+500]\n")) (str "R") (str "E")
        (str "g") (str "g.tests") 1 (str "f.ttf;;0041;[A=0+500]") false).map
      (fun r => (r.invocations.length, r.output.isEmpty)) = .ok (1, false) := by
  decide

/-- C1 (amended): for every parsed, non-excluded record, the reference binary
is invoked if and only if the fourth field is **not** the wildcard `*`; when
it is invoked, its captured stdout — whitespace-stripped and with the
enclosing bracket pair removed — becomes the expected value embedded in the
generated assertion.  Wildcard records run nothing and emit an
assertion-free invocation. -/
theorem c1_invocation_iff_not_wildcard (hb : List Str → Option Str)
    (root exe tn fn : Str) (idx : Nat) (data f o u g ff out : Str) (custom : Bool)
    (h1 : startswith data (str "@") = false)
    (h2 : splitOnChar ';' data = [f, o, u, g])
    (h3 : stripHash f = .ok ff)
    (h4 : IGNORE_TEST_CASES.contains (testName fn idx) = false)
    (h5 : g = str "*" ∨ hb (recordArgs exe root tn ff o u custom) = some out) :
    convert_test_file hb root exe tn fn idx data custom = .ok
      ⟨emitTest fn (testName fn idx) (fontfileRs tn ff custom) (convert_unicodes u)
          (optionsRs (prune_test_options o))
          (if g = str "*" then str "*" else ((trim out).drop 1).dropLast),
        if g = str "*" then [] else [recordArgs exe root tn ff o u custom],
        fontsAddedOf tn ff custom⟩ := by
  have h4m : testName fn idx ∉ IGNORE_TEST_CASES := by simpa using h4
  by_cases hg : g = str "*"
  · subst hg
    simp [convert_test_file, h1, h2, h3, h4m, runExpected, Except.bind]
  · rcases h5 with h5 | h5
    · exact absurd h5 hg
    · simp [convert_test_file, h1, h2, h3, h4m, runExpected, hg, h5, Except.bind]

/-- C1 witness: a record with a literal expected field, under an oracle that
answers ` [A=1+2] `; the invocation list is the singleton argument vector and
the asserted value is the stripped, bracket-stripped stdout. -/
theorem c1_invocation_iff_not_wildcard_witness :
    convert_test_file (fun _ => some (str " [A=1+2] ")) (str "R") (str "E") (str "g")
        (str "g.tests") 1 (str "f.ttf;;0041;[A=9+9]") false = .ok
      ⟨emitTest (str "g.tests") (testName (str "g.tests") 1)
          (fontfileRs (str "g") (str "f.ttf") false) (convert_unicodes (str "0041"))
          (optionsRs (prune_test_options (str "")))
          (if str "[A=9+9]" = str "*" then str "*"
           else ((trim (str " [A=1+2] ")).drop 1).dropLast),
        if str "[A=9+9]" = str "*" then []
        else [recordArgs (str "E") (str "R") (str "g") (str "f.ttf") (str "")
                (str "0041") false],
        fontsAddedOf (str "g") (str "f.ttf") false⟩ :=
  c1_invocation_iff_not_wildcard (fun _ => some (str " [A=1+2] ")) (str "R") (str "E")
    (str "g") (str "g.tests") 1 (str "f.ttf;;0041;[A=9+9]") (str "f.ttf") (str "")
    (str "0041") (str "[A=9+9]") (str "f.ttf") (str " [A=1+2] ") false
    (by decide) (by decide) (by decide) (by decide) (Or.inr rfl)

/-! ## Claim C2 -/

/-- C2, counterexample: on the exact two-line fixture of the claim
(`fontA.ttf;--shaper=ot;U+0041;[A=0+500]` then a wildcard record), with an
oracle answering `[B=1+600]`, the generated module does **not** contain the
literal `A=0+500` (the first test asserts the oracle's output instead), does
**not** contain a second test function (its name `simple_002` is excluded),
and exactly one reference invocation happens — for the *first*, literal
record. -/
theorem c2_end_to_end_claim_false :
    (convert_test_files (fun _ => some (str "[B=1+600]\n")) (str "ROOT") (str "HB")
        (str "simple")
        [(str "simple.tests",
          [str "fontA.ttf;--shaper=ot;U+0041;[A=0+500]", str "fontB.ttf;;U+0042;*"])]
        false).map
      (fun r => (occursIn (str "A=0+500") r.output, occursIn (str "simple_002") r.output,
        r.invocations.length)) = .ok (false, false, 1) := by
  decide

/-- C2 (amended): on the claim's fixture the generated module contains exactly
one test function, `simple_001`, which asserts equality against the captured,
whitespace-stripped, bracket-stripped stdout of the reference binary (invoked
once, for this literal-expected record, with pruned options); the second,
wildcard record derives the excluded identifier `simple_002` and contributes
nothing (had it not been excluded it would have emitted an assertion-free
invocation and no reference-binary call). -/
theorem c2_end_to_end_amended :
    convert_test_files (fun _ => some (str "[B=1+600]\n")) (str "ROOT") (str "HB")
        (str "simple")
        [(str "simple.tests",
          [str "fontA.ttf;--shaper=ot;U+0041;[A=0+500]", str "fontB.ttf;;U+0042;*"])]
        false = .ok
      ⟨str "// WARNING: this file was generated by ../scripts/gen-shaping-tests.py\n\nuse crate::shape;\n\n#[test]\nfn simple_001() \x7b\n    assert_eq!(\n        shape(\n            \"tests/fonts/simple/fontA.ttf\",\n            \"\\u\x7b0041\x7d\",\n            \"\",\n        ),\n        \"B=1+600\"\n    );\n\x7d\n",
        [str "fontA.ttf"],
        [[str "HB", str "ROOT/test/shape/data/simple/tests/fontA.ttf",
          str "--unicodes=U+0041"]]⟩ := by
  decide

end GenShaping
